import Mathlib

/- Shallow embedding of the morning-greeting bot
   (src/functions/greetings.js, src/functions/users.js,
   src/utils/database.js, src/utils/scheduler.js, src/utils/config.js).

   Timestamps are modelled as minutes since an arbitrary epoch, in UTC:
   the SQLite column last_greeting_sent is written with CURRENT_TIMESTAMP
   (which is UTC) and read back through DATE(...), which truncates a UTC
   timestamp to its UTC calendar date; utcDay models that truncation.
   A timezone is modelled by its offset from UTC in minutes. -/

/-- Row of the users table (src/utils/database.js, CREATE TABLE users).
    Timestamp columns hold minutes since the epoch (UTC); NULL is none.
    Missing TEXT values are modelled as the empty string (both are falsy
    for the JavaScript fallbacks that read them). -/
structure UserRow where
  bitrix_id : String
  name : String
  first_name : String
  last_name : String
  email : String
  work_position : String
  department : String
  is_active : Bool
  last_greeting_sent : Option Nat
  deriving DecidableEq

/-- UTC calendar date of a UTC timestamp: models both SQLite DATE(t) on a
    CURRENT_TIMESTAMP value and new Date().toISOString().split('T')[0]
    in Database.getUsersForMorningGreeting. -/
def utcDay (t : Nat) : Nat := t / 1440

/-- Calendar date of a UTC timestamp in the timezone whose UTC offset is
    off minutes.  Used only to state claim C1's timezone-aware
    eligibility predicate, for comparison with the code's UTC one. -/
def localDay (off : Int) (t : Nat) : Int := Int.fdiv ((t : Int) + off) 1440

/-- UTC offset in minutes of the configured timezone:
    config.schedule.morningGreeting.timezone defaults to Europe/Moscow,
    which is UTC+3 year-round. -/
def moscowOffset : Int := 180

/-- WHERE clause of Database.getUsersForMorningGreeting:
    is_active = 1 AND (last_greeting_sent IS NULL OR
    DATE(last_greeting_sent) < DATE(?)), the parameter being the run's
    current UTC calendar date. -/
def codeEligible (now : Nat) (u : UserRow) : Bool :=
  u.is_active &&
    (match u.last_greeting_sent with
     | none => true
     | some t => decide (utcDay t < utcDay now))

/-- Eligibility predicate exactly as claim C1 words it: active, and the
    last-sent calendar date taken in the configured timezone (offset
    off) is strictly before the run's calendar date in that timezone.
    This follows the claim's words, not the source, and is compared
    against the source-derived codeEligible. -/
def specEligibleInTz (off : Int) (now : Nat) (u : UserRow) : Bool :=
  u.is_active &&
    (match u.last_greeting_sent with
     | none => true
     | some t => decide (localDay off t < localDay off now))

/-- Ascending ordering on rows used by the SQL ORDER BY name clause. -/
def nameLe (a b : UserRow) : Prop := a.name ≤ b.name

instance : DecidableRel nameLe :=
  fun a b => inferInstanceAs (Decidable (a.name ≤ b.name))

instance : IsTotal UserRow nameLe := ⟨fun a b => le_total a.name b.name⟩

instance : IsTrans UserRow nameLe := ⟨fun _ _ _ hab hbc => le_trans hab hbc⟩

/-- Database.getUsersForMorningGreeting: SELECT * FROM users WHERE
    is_active = 1 AND (last_greeting_sent IS NULL OR
    DATE(last_greeting_sent) < DATE(?)) ORDER BY name.  The row source
    is the table contents; ORDER BY name is an ascending sort. -/
def getUsersForMorningGreeting (rows : List UserRow) (now : Nat) : List UserRow :=
  List.insertionSort nameLe (rows.filter (codeEligible now))

/-- getActiveUsersForGreeting (src/functions/users.js) just forwards the
    database query result. -/
def getActiveUsersForGreeting (rows : List UserRow) (now : Nat) : List UserRow :=
  getUsersForMorningGreeting rows now

/- ------------------------------------------------------------------ -/
/- Message composer: config.messages and generateGreeting /
   generateKeyboard from src/functions/greetings.js. -/

/-- config.messages.greetings (src/utils/config.js). -/
def greetingsConfig : List String :=
  ["🌞 Доброе утро, {name}! Желаю вам продуктивного дня!",
   "☀️ Привет, {name}! Пусть этот день принесет только хорошее!",
   "🌅 С добрым утром, {name}! Отличного настроения и успехов в работе!",
   "💫 Добрый день, {name}! Начинаем день с позитива!",
   "🌈 Приветствую, {name}! Пусть день будет ярким и успешным!",
   "🌸 Доброе утро, {name}! Хорошего дня и отличных результатов!",
   "⭐ Привет, {name}! Новый день - новые возможности!",
   "🎯 С добрым утром, {name}! Пусть все задачи решаются легко!",
   "🚀 Доброе утро, {name}! Энергии и вдохновения на весь день!",
   "☕ Привет, {name}! Начнём день с улыбки и чашки кофе!"]

/-- config.messages.tips (src/utils/config.js). -/
def tipsConfig : List String :=
  ["[b]💡 Совет дня:[/b]\nНачните день с самой важной задачи - это повысит вашу продуктивность!",
   "[b]💡 Совет дня:[/b]\nНе забудьте сделать короткие перерывы между задачами для восстановления энергии.",
   "[b]💡 Совет дня:[/b]\nСоставьте список из 3 главных целей на день - это поможет сфокусироваться.",
   "[b]💡 Совет дня:[/b]\nВыпейте стакан воды прямо сейчас - гидратация важна для продуктивности!",
   "[b]💡 Совет дня:[/b]\nУделите 5 минут планированию дня - это сэкономит часы работы.",
   "[b]💡 Совет дня:[/b]\nПомните о правиле 2 минут: если задача занимает меньше 2 минут - сделайте её сразу!",
   "[b]💡 Совет дня:[/b]\nИспользуйте технику Pomodoro: 25 минут работы, 5 минут отдыха.",
   "[b]💡 Совет дня:[/b]\nНачните день с благодарности - это настроит на позитивный лад.",
   "[b]💡 Совет дня:[/b]\nОтключите уведомления на время важной работы - фокус превыше всего!",
   "[b]💡 Совет дня:[/b]\nСделайте несколько глубоких вдохов - это поможет сосредоточиться."]

/-- config.messages.holidays (src/utils/config.js), keyed by MM-DD. -/
def holidaysConfig : List (String × String) :=
  [("01-01", "🎄 С Новым годом, {name}! Пусть этот год будет полон успехов!"),
   ("23-02", "🎖️ С Днём защитника Отечества, {name}!"),
   ("08-03", "🌷 С Международным женским днём, {name}!"),
   ("01-05", "🌺 С праздником Весны и Труда, {name}!"),
   ("09-05", "🎗️ С Днём Победы, {name}!"),
   ("12-06", "🇷🇺 С Днём России, {name}!"),
   ("04-11", "🤝 С Днём народного единства, {name}!")]

/-- Prefix test on character lists (structural, kernel-evaluable). -/
def charsMatch : List Char → List Char → Bool
  | [], _ => true
  | _ :: _, [] => false
  | p :: ps, c :: cs => p == c && charsMatch ps cs

/-- Replace the first occurrence of pat by rep in a character list. -/
def replFirstChars (pat rep : List Char) : List Char → List Char
  | [] => []
  | c :: cs =>
    if charsMatch pat (c :: cs) then rep ++ (c :: cs).drop pat.length
    else c :: replFirstChars pat rep cs

/-- JavaScript String.prototype.replace with a string pattern replaces
    only the first occurrence. -/
def replaceFirst (s pat rep : String) : String :=
  ⟨replFirstChars pat.data rep.data s.data⟩

/-- generateGreeting (src/functions/greetings.js).  monthDay is the
    MM-DD rendering of the current date; draws are the two
    Math.floor(Math.random() * length) indices (greeting, tip) drawn on
    a non-holiday date, always below the respective list length. -/
def generateGreeting (userName monthDay : String) (draws : Nat × Nat) : String :=
  match holidaysConfig.lookup monthDay with
  | some h => replaceFirst h ("{name}") userName
  | none =>
    let randomGreeting := greetingsConfig.getD draws.1 ("")
    let randomTip := tipsConfig.getD draws.2 ("")
    replaceFirst randomGreeting ("{name}") userName ++ "\n\n" ++ randomTip

/-- Button object in the keyboard payload (fields as in the source). -/
structure KbButton where
  TEXT : String
  COMMAND : String
  COMMAND_PARAMS : String
  BG_COLOR : String
  TEXT_COLOR : String
  deriving DecidableEq

/-- generateKeyboard (src/functions/greetings.js): a literal constant. -/
def generateKeyboard : List (List KbButton) :=
  [[⟨"👍 Спасибо!", "thanks", "morning", "#29619b", "#ffffff"⟩,
    ⟨"📅 Мои задачи", "tasks", "today", "#2a9b05", "#ffffff"⟩],
   [⟨"❓ Помощь", "help", "", "#555555", "#ffffff"⟩]]

/- ------------------------------------------------------------------ -/
/- Claim C1 -/

/-- C1 counterexample: at a run instant of 22:00 UTC (= 01:00 next day
    in the configured Europe/Moscow timezone) a recipient last greeted
    at 20:00 UTC the same UTC day is eligible under the claim's
    timezone-aware predicate (Moscow dates differ) but is filtered out
    by the code, which compares UTC calendar dates. -/
theorem c1_counterexample :
    ¬ ((⟨"1", "А", "", "", "", "", "", true, some 1200⟩ : UserRow) ∈
          getUsersForMorningGreeting [⟨"1", "А", "", "", "", "", "", true, some 1200⟩] 1320 ↔
        ((⟨"1", "А", "", "", "", "", "", true, some 1200⟩ : UserRow) ∈
            [(⟨"1", "А", "", "", "", "", "", true, some 1200⟩ : UserRow)] ∧
          specEligibleInTz moscowOffset 1320 ⟨"1", "А", "", "", "", "", "", true, some 1200⟩ = true)) := by
  decide

/-- C1 amended: a recipient is in the computed eligible set iff it is in
    the store, its active flag is set, and its lastSentAt is null or its
    UTC calendar date is strictly before the run's UTC calendar date
    (the code compares UTC dates, not dates in the configured timezone). -/
theorem c1_eligibility_utc (rows : List UserRow) (now : Nat) (u : UserRow) :
    u ∈ getUsersForMorningGreeting rows now ↔
      u ∈ rows ∧ codeEligible now u = true := by
  unfold getUsersForMorningGreeting
  rw [(List.perm_insertionSort nameLe (rows.filter (codeEligible now))).mem_iff]
  exact List.mem_filter

/- ------------------------------------------------------------------ -/
/- Claim C10 -/

/-- C10: the recipient sequence handed to a dispatch run is the
    eligibility filter of the store sorted ascending by the name column
    (ORDER BY name), independent of store insertion order: it is sorted
    by nameLe and is a permutation of the filtered store. -/
theorem c10_sorted_by_name (rows : List UserRow) (now : Nat) :
    List.Sorted nameLe (getActiveUsersForGreeting rows now) ∧
      (getActiveUsersForGreeting rows now).Perm (rows.filter (codeEligible now)) := by
  constructor
  · exact List.sorted_insertionSort nameLe (rows.filter (codeEligible now))
  · exact List.perm_insertionSort nameLe (rows.filter (codeEligible now))

/- ------------------------------------------------------------------ -/
/- Claim C8 -/

/-- C8 counterexample: on a non-holiday date two invocations of the
    message composer with the same display name and date but different
    random draws produce different message texts, so the composer is not
    a deterministic function of name and date alone. -/
theorem c8_counterexample :
    generateGreeting ("Иван") ("01-02") (0, 0) ≠ generateGreeting ("Иван") ("01-02") (1, 0) := by
  decide

/-- C8 amended: the keyboard payload is a constant, and the message text
    is deterministic in (name, date) only on dates present in the
    holiday table; on other dates it additionally depends on the two
    random draws.  On a holiday date any two invocations with the same
    name agree. -/
theorem c8_composer_determinism (userName monthDay : String)
    (h : (holidaysConfig.lookup monthDay).isSome = true) (d1 d2 : Nat × Nat) :
    generateGreeting userName monthDay d1 = generateGreeting userName monthDay d2 := by
  obtain ⟨v, hv⟩ := Option.isSome_iff_exists.mp h
  simp [generateGreeting, hv]

/-- C8 witness: January 1st is in the holiday table, and the amended
    determinism theorem applies there. -/
theorem c8_composer_determinism_witness :
    (holidaysConfig.lookup ("01-01")).isSome = true ∧
      generateGreeting ("Иван") ("01-01") (0, 0) = generateGreeting ("Иван") ("01-01") (3, 7) :=
  ⟨by decide, c8_composer_determinism ("Иван") ("01-01") (by decide) (0, 0) (3, 7)⟩

/- ------------------------------------------------------------------ -/
/- Batch dispatcher: sendMorningGreetings and its helpers
   (src/functions/greetings.js), message_history writes
   (src/utils/database.js saveMessageHistory, BitrixBot.sendMessage). -/

/-- Row of the message_history table as written by saveMessageHistory. -/
structure MsgRow where
  user_id : String
  message_text : String
  status : String
  error_message : Option String
  deriving DecidableEq

/-- Result object pushed by sendGreetingToUser into results.details:
    on success { success: true, userId }, on failure
    { success: false, userId, error: error.message }. -/
structure SendDetail where
  success : Bool
  userId : String
  error : Option String
  deriving DecidableEq

/-- Observable step of a dispatch run: a processed recipient or an
    awaited setTimeout pause of the given number of milliseconds. -/
inductive RunEv where
  | msg (d : SendDetail)
  | sleep (ms : Nat)
  deriving DecidableEq

/-- Mutable state threaded through a run: the users table and the
    message_history table. -/
structure RunSt where
  store : List UserRow
  hist : List MsgRow
  deriving DecidableEq

/-- Aggregate output of the batch loop: the details list, the sent and
    errors counters, the event trace and the final state. -/
structure LoopOut where
  details : List SendDetail
  sent : Nat
  errors : Nat
  evs : List RunEv
  st : RunSt
  deriving DecidableEq

/-- Environment of one dispatch run.  batchSize and delay come from
    config.bot (maxUsersPerBatch, delayBetweenMessages); monthDay is the
    run's MM-DD date.  The external world is captured per step index k:
    del k is none when the Delivery Channel send of step k succeeds and
    some message when it throws with that error message; time k is the
    UTC timestamp CURRENT_TIMESTAMP would write at step k; rand k are
    the two random draws of generateGreeting at step k. -/
structure BotEnv where
  batchSize : Nat
  delay : Nat
  monthDay : String
  del : Nat → Option String
  time : Nat → Nat
  rand : Nat → Nat × Nat

/-- JavaScript a || b on strings: the empty string is falsy. -/
def jsOrStr (a b : String) : String := if a = "" then b else a

/-- user.name || user.first_name || the literal fallback name. -/
def userNameOf (u : UserRow) : String :=
  jsOrStr u.name (jsOrStr u.first_name ("Коллега"))

/-- Database.updateLastGreeting: UPDATE users SET last_greeting_sent =
    CURRENT_TIMESTAMP WHERE bitrix_id = ?. -/
def updateLastGreeting (store : List UserRow) (uid : String) (t : Nat) : List UserRow :=
  store.map fun r =>
    if r.bitrix_id = uid then { r with last_greeting_sent := some t } else r

/-- BitrixBot.sendMessage at step k: on success it appends a sent row to
    message_history and returns no error; on a delivery failure it
    appends an error row (its catch block) and rethrows the message. -/
def botSendMessage (E : BotEnv) (k : Nat) (uid message : String)
    (hist : List MsgRow) : List MsgRow × Option String :=
  match E.del k with
  | none => (hist ++ [⟨uid, message, "sent", none⟩], none)
  | some m => (hist ++ [⟨uid, message, "error", some m⟩], some m)

/-- sendGreetingToUser: composes the message, sends it, updates the
    eligibility record only on success, and catches any failure,
    returning the per-recipient result object instead of throwing. -/
def sendGreetingToUser (E : BotEnv) (k : Nat) (u : UserRow) (st : RunSt) :
    SendDetail × RunSt :=
  let message := generateGreeting (userNameOf u) E.monthDay (E.rand k)
  let r := botSendMessage E k u.bitrix_id message st.hist
  match r.2 with
  | none =>
    (⟨true, u.bitrix_id, none⟩,
     ⟨updateLastGreeting st.store u.bitrix_id (E.time k), r.1⟩)
  | some m => (⟨false, u.bitrix_id, some m⟩, ⟨st.store, r.1⟩)

/-- Consecutive slices users.slice(i, i + batchSize) taken by the batch
    loop for i = 0, batchSize, 2*batchSize, ...  For batchSize = 0 the
    source loop would never terminate; that case is mapped to [] and is
    unreachable (config.bot.maxUsersPerBatch falls back to 10 on any
    falsy value, so it is at least 1 in every claim considered). -/
def batchesOf {α : Type _} : Nat → List α → List (List α)
  | _, [] => []
  | 0, _ :: _ => []
  | b + 1, x :: xs => (x :: xs.take b) :: batchesOf (b + 1) (xs.drop b)
termination_by _ l => l.length
decreasing_by simp only [List.length_drop, List.length_cons]; omega

/-- Inner loop of sendMorningGreetings over one batch: processes the
    recipients sequentially, pushes each result, bumps the matching
    counter, and after each recipient awaits the inter-message delay
    when it is positive. -/
def runBatch (E : BotEnv) : List UserRow → Nat → RunSt → LoopOut
  | [], _, st => ⟨[], 0, 0, [], st⟩
  | u :: us, k, st =>
    let p := sendGreetingToUser E k u st
    let o := runBatch E us (k + 1) p.2
    ⟨p.1 :: o.details,
     (if p.1.success then 1 else 0) + o.sent,
     (if p.1.success then 0 else 1) + o.errors,
     RunEv.msg p.1 :: ((if 0 < E.delay then [RunEv.sleep E.delay] else []) ++ o.evs),
     o.st⟩

/-- Outer loop of sendMorningGreetings over the batch slices: after a
    batch, when i + batchSize < users.length (i.e. another slice
    follows), an additional pause of delay * 2 is awaited. -/
def runChunks (E : BotEnv) : List (List UserRow) → Nat → RunSt → LoopOut
  | [], _, st => ⟨[], 0, 0, [], st⟩
  | [c], k, st => runBatch E c k st
  | c :: c2 :: cs, k, st =>
    let o1 := runBatch E c k st
    let o2 := runChunks E (c2 :: cs) (k + c.length) o1.st
    ⟨o1.details ++ o2.details, o1.sent + o2.sent, o1.errors + o2.errors,
     o1.evs ++ RunEv.sleep (2 * E.delay) :: o2.evs, o2.st⟩

/-- The whole batched loop of sendMorningGreetings over the eligible
    recipient list. -/
def runBatches (E : BotEnv) (users : List UserRow) (k : Nat) (st : RunSt) : LoopOut :=
  runChunks E (batchesOf E.batchSize users) k st

/-- JavaScript truthiness of detail.error: absent or empty is falsy. -/
def jsTruthy : Option String → Bool
  | none => false
  | some m => !(m == "")

/-- saveGreetingStats: for every failed result with a truthy error it
    appends a Morning greeting error row to message_history. -/
def saveGreetingStats (ds : List SendDetail) (hist : List MsgRow) : List MsgRow :=
  ds.foldl
    (fun h d =>
      if !d.success && jsTruthy d.error then
        h ++ [⟨d.userId, "Morning greeting", "error", d.error⟩]
      else h)
    hist

/-- Value returned by sendMorningGreetings.  On the empty-recipient
    early return the source returns { total: 0, sent: 0, errors: 0 }
    with no details field at all; details is therefore an Option. -/
structure RunResults where
  total : Nat
  sent : Nat
  errors : Nat
  details : Option (List SendDetail)
  deriving DecidableEq

/-- sendMorningGreetings (src/functions/greetings.js), from the point
    where the eligible user list is known: early return on an empty
    list, otherwise the batched loop followed by saveGreetingStats.
    Returns the results object, the final state and the event trace. -/
def sendMorningGreetings (E : BotEnv) (users : List UserRow) (st : RunSt) :
    RunResults × RunSt × List RunEv :=
  if users.length = 0 then (⟨0, 0, 0, none⟩, st, [])
  else
    let o := runBatches E users 0 st
    (⟨users.length, o.sent, o.errors, some o.details⟩,
     ⟨o.st.store, saveGreetingStats o.details o.st.hist⟩,
     o.evs)

/- Derived closed forms used to reason about the loop. -/

/-- Result object of step k for recipient u, determined by del k. -/
def mkDetail (E : BotEnv) (k : Nat) (u : UserRow) : SendDetail :=
  match E.del k with
  | none => ⟨true, u.bitrix_id, none⟩
  | some m => ⟨false, u.bitrix_id, some m⟩

/-- message_history row appended by the send of step k for u. -/
def histRowOf (E : BotEnv) (k : Nat) (u : UserRow) : MsgRow :=
  let message := generateGreeting (userNameOf u) E.monthDay (E.rand k)
  match E.del k with
  | none => ⟨u.bitrix_id, message, "sent", none⟩
  | some m => ⟨u.bitrix_id, message, "error", some m⟩

/-- Details produced for a recipient list starting at step k. -/
def detailsOf (E : BotEnv) : List UserRow → Nat → List SendDetail
  | [], _ => []
  | u :: us, k => mkDetail E k u :: detailsOf E us (k + 1)

/-- message_history rows appended for a recipient list from step k. -/
def histOf (E : BotEnv) : List UserRow → Nat → List MsgRow
  | [], _ => []
  | u :: us, k => histRowOf E k u :: histOf E us (k + 1)

/-- Accumulated effect of the run on one users-table row: each
    successful step for a matching bitrix_id overwrites
    last_greeting_sent with that step's timestamp. -/
def applyUpdates (E : BotEnv) : List UserRow → Nat → UserRow → UserRow
  | [], _, r => r
  | u :: us, k, r =>
    applyUpdates E us (k + 1)
      (if E.del k = none then
        (if r.bitrix_id = u.bitrix_id then
          { r with last_greeting_sent := some (E.time k) }
         else r)
       else r)

/-- Event trace of one batch: each recipient event followed by the
    inter-message pause when the delay is positive. -/
def evOfDetails (delay : Nat) : List SendDetail → List RunEv
  | [] => []
  | d :: ds =>
    RunEv.msg d :: ((if 0 < delay then [RunEv.sleep delay] else []) ++ evOfDetails delay ds)

/-- Event trace of the chunked loop: batch traces separated by the
    inter-batch pause of delay * 2. -/
def evOfChunks (E : BotEnv) : List (List UserRow) → Nat → List RunEv
  | [], _ => []
  | [c], k => evOfDetails E.delay (detailsOf E c k)
  | c :: c2 :: cs, k =>
    evOfDetails E.delay (detailsOf E c k) ++
      RunEv.sleep (2 * E.delay) :: evOfChunks E (c2 :: cs) (k + c.length)

/-- Rows appended by saveGreetingStats, as a filterMap. -/
def statsRows (ds : List SendDetail) : List MsgRow :=
  ds.filterMap fun d =>
    if !d.success && jsTruthy d.error then
      some ⟨d.userId, "Morning greeting", "error", d.error⟩
    else none

/- Loop characterisation lemmas. -/

theorem applyUpdates_cons_none (E : BotEnv) (u : UserRow) (us : List UserRow)
    (k : Nat) (hd : E.del k = none) (r : UserRow) :
    applyUpdates E (u :: us) k r =
      applyUpdates E us (k + 1)
        (if r.bitrix_id = u.bitrix_id then
          { r with last_greeting_sent := some (E.time k) }
         else r) := by
  simp [applyUpdates, hd]

theorem applyUpdates_cons_some (E : BotEnv) (u : UserRow) (us : List UserRow)
    (k : Nat) (m : String) (hd : E.del k = some m) (r : UserRow) :
    applyUpdates E (u :: us) k r = applyUpdates E us (k + 1) r := by
  simp [applyUpdates, hd]

theorem runBatch_spec (E : BotEnv) :
    ∀ (us : List UserRow) (k : Nat) (st : RunSt),
      runBatch E us k st =
        ⟨detailsOf E us k,
         (detailsOf E us k).countP (fun d => d.success),
         (detailsOf E us k).countP (fun d => !d.success),
         evOfDetails E.delay (detailsOf E us k),
         ⟨st.store.map (applyUpdates E us k), st.hist ++ histOf E us k⟩⟩ := by
  intro us
  induction us with
  | nil =>
    intro k st
    simp [runBatch, detailsOf, evOfDetails, histOf, applyUpdates]
  | cons u us ih =>
    intro k st
    cases hd : E.del k with
    | none =>
      have hstep : sendGreetingToUser E k u st =
          (⟨true, u.bitrix_id, none⟩,
           ⟨updateLastGreeting st.store u.bitrix_id (E.time k),
            st.hist ++ [histRowOf E k u]⟩) := by
        simp [sendGreetingToUser, botSendMessage, histRowOf, hd]
      have hmk : mkDetail E k u = ⟨true, u.bitrix_id, none⟩ := by
        simp [mkDetail, hd]
      have hstore : (updateLastGreeting st.store u.bitrix_id (E.time k)).map
            (applyUpdates E us (k + 1)) = st.store.map (applyUpdates E (u :: us) k) := by
        unfold updateLastGreeting
        rw [List.map_map]
        apply List.map_congr_left
        intro r _
        simp only [Function.comp_apply]
        rw [applyUpdates_cons_none E u us k hd r]
      simp only [runBatch, hstep, ih, detailsOf, histOf, evOfDetails, hmk,
        List.countP_cons, LoopOut.mk.injEq, RunSt.mk.injEq]
      refine ⟨trivial, by simp [Nat.add_comm], by simp [Nat.add_comm], trivial, hstore, by simp⟩
    | some m =>
      have hstep : sendGreetingToUser E k u st =
          (⟨false, u.bitrix_id, some m⟩,
           ⟨st.store, st.hist ++ [histRowOf E k u]⟩) := by
        simp [sendGreetingToUser, botSendMessage, histRowOf, hd]
      have hmk : mkDetail E k u = ⟨false, u.bitrix_id, some m⟩ := by
        simp [mkDetail, hd]
      have hstore : st.store.map (applyUpdates E us (k + 1)) =
          st.store.map (applyUpdates E (u :: us) k) := by
        apply List.map_congr_left
        intro r _
        rw [applyUpdates_cons_some E u us k m hd r]
      simp only [runBatch, hstep, ih, detailsOf, histOf, evOfDetails, hmk,
        List.countP_cons, LoopOut.mk.injEq, RunSt.mk.injEq]
      refine ⟨trivial, by simp [Nat.add_comm], by simp [Nat.add_comm], trivial, hstore, by simp⟩

theorem detailsOf_append (E : BotEnv) :
    ∀ (l1 l2 : List UserRow) (k : Nat),
      detailsOf E (l1 ++ l2) k = detailsOf E l1 k ++ detailsOf E l2 (k + l1.length) := by
  intro l1
  induction l1 with
  | nil => intro l2 k; simp [detailsOf]
  | cons u us ih =>
    intro l2 k
    simp only [List.cons_append, detailsOf, List.length_cons, List.append_eq]
    rw [ih]
    have : k + (us.length + 1) = k + 1 + us.length := by omega
    rw [this]

theorem histOf_append (E : BotEnv) :
    ∀ (l1 l2 : List UserRow) (k : Nat),
      histOf E (l1 ++ l2) k = histOf E l1 k ++ histOf E l2 (k + l1.length) := by
  intro l1
  induction l1 with
  | nil => intro l2 k; simp [histOf]
  | cons u us ih =>
    intro l2 k
    simp only [List.cons_append, histOf, List.length_cons, List.append_eq]
    rw [ih]
    have : k + (us.length + 1) = k + 1 + us.length := by omega
    rw [this]

theorem applyUpdates_append (E : BotEnv) :
    ∀ (l1 l2 : List UserRow) (k : Nat) (r : UserRow),
      applyUpdates E (l1 ++ l2) k r = applyUpdates E l2 (k + l1.length) (applyUpdates E l1 k r) := by
  intro l1
  induction l1 with
  | nil => intro l2 k r; simp [applyUpdates]
  | cons u us ih =>
    intro l2 k r
    simp only [List.cons_append, applyUpdates, List.length_cons, List.append_eq]
    rw [ih]
    have : k + (us.length + 1) = k + 1 + us.length := by omega
    rw [this]

theorem runChunks_spec (E : BotEnv) :
    ∀ (cs : List (List UserRow)) (k : Nat) (st : RunSt),
      runChunks E cs k st =
        ⟨detailsOf E cs.flatten k,
         (detailsOf E cs.flatten k).countP (fun d => d.success),
         (detailsOf E cs.flatten k).countP (fun d => !d.success),
         evOfChunks E cs k,
         ⟨st.store.map (applyUpdates E cs.flatten k),
          st.hist ++ histOf E cs.flatten k⟩⟩ := by
  intro cs
  induction cs with
  | nil =>
    intro k st
    simp [runChunks, detailsOf, evOfChunks, histOf, applyUpdates]
  | cons c cs ih =>
    intro k st
    cases cs with
    | nil =>
      simp only [runChunks, evOfChunks, List.flatten_cons, List.flatten_nil,
        List.append_nil]
      exact runBatch_spec E c k st
    | cons c2 cs2 =>
      have hmapmap : ∀ store : List UserRow,
          (store.map (applyUpdates E c k)).map
              (applyUpdates E (c2 :: cs2).flatten (k + c.length)) =
            store.map (applyUpdates E (c :: c2 :: cs2).flatten k) := by
        intro store
        rw [List.map_map]
        apply List.map_congr_left
        intro r _
        simp only [Function.comp_apply, List.flatten_cons]
        rw [applyUpdates_append E c (c2 ++ cs2.flatten) k r]
      simp only [runChunks, runBatch_spec, ih, evOfChunks, List.flatten_cons,
        detailsOf_append, histOf_append, List.countP_append,
        LoopOut.mk.injEq, RunSt.mk.injEq]
      refine ⟨trivial, trivial, trivial, trivial, ?_, by simp⟩
      exact hmapmap st.store

theorem batchesOf_nil {α : Type _} (bs : Nat) : batchesOf bs ([] : List α) = [] := by
  cases bs <;> simp [batchesOf]

theorem batchesOf_cons {α : Type _} (b : Nat) (x : α) (xs : List α) :
    batchesOf (b + 1) (x :: xs) = (x :: xs.take b) :: batchesOf (b + 1) (xs.drop b) := by
  simp [batchesOf]

theorem batchesOf_flatten_aux {α : Type _} (bs : Nat) (hbs : 0 < bs) :
    ∀ (n : Nat) (l : List α), l.length ≤ n → (batchesOf bs l).flatten = l := by
  intro n
  induction n with
  | zero =>
    intro l hl
    have : l = [] := List.eq_nil_of_length_eq_zero (Nat.le_zero.mp hl)
    subst this
    simp [batchesOf_nil]
  | succ n ih =>
    intro l hl
    cases l with
    | nil => simp [batchesOf_nil]
    | cons x xs =>
      obtain ⟨b, rfl⟩ : ∃ b, bs = b + 1 := ⟨bs - 1, by omega⟩
      rw [batchesOf_cons]
      simp only [List.flatten_cons]
      rw [ih (xs.drop b) (by simp only [List.length_drop]; simp at hl; omega)]
      simp [List.take_append_drop]

theorem batchesOf_flatten {α : Type _} (bs : Nat) (hbs : 0 < bs) (l : List α) :
    (batchesOf bs l).flatten = l :=
  batchesOf_flatten_aux bs hbs l.length l le_rfl

theorem runBatches_spec (E : BotEnv) (hbs : 0 < E.batchSize)
    (users : List UserRow) (k : Nat) (st : RunSt) :
    runBatches E users k st =
      ⟨detailsOf E users k,
       (detailsOf E users k).countP (fun d => d.success),
       (detailsOf E users k).countP (fun d => !d.success),
       evOfChunks E (batchesOf E.batchSize users) k,
       ⟨st.store.map (applyUpdates E users k), st.hist ++ histOf E users k⟩⟩ := by
  unfold runBatches
  rw [runChunks_spec, batchesOf_flatten E.batchSize hbs users]

theorem detailsOf_map_userId (E : BotEnv) :
    ∀ (us : List UserRow) (k : Nat),
      (detailsOf E us k).map (fun d => d.userId) = us.map (fun u => u.bitrix_id) := by
  intro us
  induction us with
  | nil => intro k; simp [detailsOf]
  | cons u us ih =>
    intro k
    cases hd : E.del k <;> simp [detailsOf, mkDetail, hd, ih]

theorem detailsOf_length (E : BotEnv) :
    ∀ (us : List UserRow) (k : Nat), (detailsOf E us k).length = us.length := by
  intro us
  induction us with
  | nil => intro k; simp [detailsOf]
  | cons u us ih => intro k; simp [detailsOf, ih]

theorem countP_add_countP_not {α : Type _} (p : α → Bool) :
    ∀ l : List α, l.countP p + l.countP (fun a => !p a) = l.length := by
  intro l
  induction l with
  | nil => simp
  | cons a l ih =>
    simp only [List.countP_cons, List.length_cons]
    cases h : p a <;> simp [h] <;> omega

theorem saveGreetingStats_eq (ds : List SendDetail) :
    ∀ hist : List MsgRow, saveGreetingStats ds hist = hist ++ statsRows ds := by
  induction ds with
  | nil => intro hist; simp [saveGreetingStats, statsRows]
  | cons d ds ih =>
    intro hist
    unfold saveGreetingStats statsRows
    rw [List.foldl_cons, List.filterMap_cons]
    cases hc : (!d.success && jsTruthy d.error) with
    | false =>
      simp only [hc, Bool.false_eq_true, if_neg, ite_false]
      exact ih hist
    | true =>
      simp only [hc, ite_true]
      rw [show (List.foldl
          (fun h d =>
            if !d.success && jsTruthy d.error then
              h ++ [⟨d.userId, "Morning greeting", "error", d.error⟩]
            else h)
          (hist ++ [⟨d.userId, "Morning greeting", "error", d.error⟩]) ds : List MsgRow) =
          saveGreetingStats ds (hist ++ [⟨d.userId, "Morning greeting", "error", d.error⟩]) from rfl]
      rw [ih]
      simp [statsRows]

/- ------------------------------------------------------------------ -/
/- Claim C2 -/

/-- C2: in every dispatch run (any delivery oracle, including one that
    fails every send), every recipient is attempted — the details list
    lines up one-to-one, in order, with the input recipients — the sent
    counter equals the number of successful outcomes, the errors counter
    equals the number of failed outcomes, sent + errors = total, and the
    run returns these counts. -/
theorem c2_run_counts (E : BotEnv) (users : List UserRow) (st : RunSt)
    (hbs : 0 < E.batchSize) :
    (sendMorningGreetings E users st).1.total = users.length ∧
    (sendMorningGreetings E users st).1.sent + (sendMorningGreetings E users st).1.errors =
      (sendMorningGreetings E users st).1.total ∧
    (∀ ds, (sendMorningGreetings E users st).1.details = some ds →
      ds.map (fun d => d.userId) = users.map (fun u => u.bitrix_id) ∧
      (sendMorningGreetings E users st).1.sent = ds.countP (fun d => d.success) ∧
      (sendMorningGreetings E users st).1.errors = ds.countP (fun d => !d.success)) ∧
    (users ≠ [] → (sendMorningGreetings E users st).1.details ≠ none) := by
  by_cases h : users.length = 0
  · have hnil : users = [] := List.eq_nil_of_length_eq_zero h
    subst hnil
    refine ⟨rfl, rfl, ?_, ?_⟩
    · intro ds hds
      simp [sendMorningGreetings] at hds
    · intro hne
      exact absurd rfl hne
  · simp only [sendMorningGreetings, if_neg h, runBatches_spec E hbs]
    refine ⟨trivial, ?_, ?_, ?_⟩
    · rw [countP_add_countP_not, detailsOf_length]
    · intro ds hds
      simp only [Option.some.injEq] at hds
      subst hds
      exact ⟨detailsOf_map_userId E users 0, rfl, rfl⟩
    · intro _
      simp

/-- C2 witness: a three-recipient run with batch size 2 in which every
    delivery fails still satisfies the counting theorem. -/
theorem c2_run_counts_witness :
    0 < (⟨2, 1000, "01-02", fun _ => some ("boom"), fun _ => 0, fun _ => (0, 0)⟩ : BotEnv).batchSize ∧
    ((sendMorningGreetings ⟨2, 1000, "01-02", fun _ => some ("boom"), fun _ => 0, fun _ => (0, 0)⟩
        [⟨"1", "А", "", "", "", "", "", true, none⟩,
         ⟨"2", "Б", "", "", "", "", "", true, none⟩,
         ⟨"3", "В", "", "", "", "", "", true, none⟩] ⟨[], []⟩).1.total = 3 ∧
      (sendMorningGreetings ⟨2, 1000, "01-02", fun _ => some ("boom"), fun _ => 0, fun _ => (0, 0)⟩
        [⟨"1", "А", "", "", "", "", "", true, none⟩,
         ⟨"2", "Б", "", "", "", "", "", true, none⟩,
         ⟨"3", "В", "", "", "", "", "", true, none⟩] ⟨[], []⟩).1.sent +
        (sendMorningGreetings ⟨2, 1000, "01-02", fun _ => some ("boom"), fun _ => 0, fun _ => (0, 0)⟩
        [⟨"1", "А", "", "", "", "", "", true, none⟩,
         ⟨"2", "Б", "", "", "", "", "", true, none⟩,
         ⟨"3", "В", "", "", "", "", "", true, none⟩] ⟨[], []⟩).1.errors = 3) := by
  refine ⟨by decide, ?_⟩
  have h := c2_run_counts
    ⟨2, 1000, "01-02", fun _ => some ("boom"), fun _ => 0, fun _ => (0, 0)⟩
    [⟨"1", "А", "", "", "", "", "", true, none⟩,
     ⟨"2", "Б", "", "", "", "", "", true, none⟩,
     ⟨"3", "В", "", "", "", "", "", true, none⟩] ⟨[], []⟩ (by decide)
  exact ⟨h.1, h.2.1.trans h.1⟩

/- ------------------------------------------------------------------ -/
/- Claim C5 -/

/-- C5 counterexample: on an empty recipient list the source returns
    { total: 0, sent: 0, errors: 0 } with no details field at all (the
    early return before the loop), so the returned outcome sequence is
    absent rather than the empty sequence the claim states. -/
theorem c5_counterexample :
    (sendMorningGreetings ⟨10, 1000, "01-02", fun _ => none, fun _ => 0, fun _ => (0, 0)⟩
        [] ⟨[], []⟩).1.details ≠ some [] := by
  decide

/-- C5 amended: dispatching an empty recipient sequence returns total 0,
    sent 0, errors 0 with the outcome sequence absent (the early-return
    object carries no details field), performs no store writes (users
    table and message_history are returned unchanged) and awaits no
    delay. -/
theorem c5_empty_dispatch (E : BotEnv) (st : RunSt) :
    sendMorningGreetings E [] st = (⟨0, 0, 0, none⟩, st, []) := rfl

/- ------------------------------------------------------------------ -/
/- Claim C4 -/

theorem applyUpdates_fields (E : BotEnv) :
    ∀ (us : List UserRow) (k : Nat) (r : UserRow),
      (applyUpdates E us k r).bitrix_id = r.bitrix_id ∧
      (applyUpdates E us k r).name = r.name ∧
      (applyUpdates E us k r).first_name = r.first_name ∧
      (applyUpdates E us k r).last_name = r.last_name ∧
      (applyUpdates E us k r).email = r.email ∧
      (applyUpdates E us k r).work_position = r.work_position ∧
      (applyUpdates E us k r).department = r.department ∧
      (applyUpdates E us k r).is_active = r.is_active := by
  intro us
  induction us with
  | nil => intro k r; simp [applyUpdates]
  | cons u us ih =>
    intro k r
    simp only [applyUpdates]
    cases h1 : E.del k with
    | none =>
      by_cases h2 : r.bitrix_id = u.bitrix_id
      · rw [if_pos rfl, if_pos h2]
        exact ih (k + 1) _
      · rw [if_pos rfl, if_neg h2]
        exact ih (k + 1) r
    | some m =>
      rw [if_neg (by simp)]
      exact ih (k + 1) r

theorem applyUpdates_no_del_match (E : BotEnv) :
    ∀ (us : List UserRow) (k : Nat) (r : UserRow),
      (∀ j (hj : j < us.length), us[j].bitrix_id = r.bitrix_id → E.del (k + j) ≠ none) →
      applyUpdates E us k r = r := by
  intro us
  induction us with
  | nil => intro k r _; simp [applyUpdates]
  | cons u us ih =>
    intro k r h
    have h0 : u.bitrix_id = r.bitrix_id → E.del k ≠ none := by
      have := h 0 (by simp)
      simpa using this
    simp only [applyUpdates]
    have hstep :
        (if E.del k = none then
          (if r.bitrix_id = u.bitrix_id then
            { r with last_greeting_sent := some (E.time k) }
           else r)
         else r) = r := by
      by_cases h1 : E.del k = none
      · by_cases h2 : r.bitrix_id = u.bitrix_id
        · exact absurd h1 (h0 h2.symm)
        · rw [if_pos h1, if_neg h2]
      · rw [if_neg h1]
    rw [hstep]
    apply ih (k + 1) r
    intro j hj hbid
    have h2 := h (j + 1) (by simp only [List.length_cons]; omega)
      (by simpa using hbid)
    have harith : k + (j + 1) = k + 1 + j := by omega
    rw [harith] at h2
    exact h2

theorem applyUpdates_not_mem (E : BotEnv) :
    ∀ (us : List UserRow) (k : Nat) (r : UserRow),
      (∀ u ∈ us, u.bitrix_id ≠ r.bitrix_id) →
      applyUpdates E us k r = r := by
  intro us
  induction us with
  | nil => intro k r _; simp [applyUpdates]
  | cons u us ih =>
    intro k r h
    simp only [applyUpdates]
    have hstep :
        (if E.del k = none then
          (if r.bitrix_id = u.bitrix_id then
            { r with last_greeting_sent := some (E.time k) }
           else r)
         else r) = r := by
      by_cases h1 : E.del k = none
      · by_cases h2 : r.bitrix_id = u.bitrix_id
        · exact absurd h2.symm (h u (by simp))
        · rw [if_pos h1, if_neg h2]
      · rw [if_neg h1]
    rw [hstep]
    exact ih (k + 1) r (fun v hv => h v (by simp [hv]))

theorem applyUpdates_success (E : BotEnv) :
    ∀ (us : List UserRow) (k : Nat) (r : UserRow) (j : Nat) (hj : j < us.length),
      us[j].bitrix_id = r.bitrix_id →
      E.del (k + j) = none →
      (∀ j2 (hj2 : j2 < us.length), j2 ≠ j → us[j2].bitrix_id ≠ us[j].bitrix_id) →
      (applyUpdates E us k r).last_greeting_sent = some (E.time (k + j)) := by
  intro us
  induction us with
  | nil => intro k r j hj; simp at hj
  | cons u us ih =>
    intro k r j hj hid hdel huniq
    cases j with
    | zero =>
      simp only [List.getElem_cons_zero] at hid
      simp only [applyUpdates]
      rw [if_pos (show E.del k = none by simpa using hdel)]
      rw [if_pos hid.symm]
      rw [applyUpdates_not_mem E us (k + 1) _ ?_]
      · simp
      · intro v hv
        obtain ⟨i, hi, rfl⟩ := List.mem_iff_getElem.mp hv
        have hx := huniq (i + 1) (by simp only [List.length_cons]; omega) (by omega)
        simp only [List.getElem_cons_succ, List.getElem_cons_zero] at hx
        intro he
        exact hx (by rw [he]; exact hid.symm)
    | succ j =>
      have hjus : j < us.length := by
        simp only [List.length_cons] at hj
        omega
      have hid2 : us[j].bitrix_id = r.bitrix_id := by simpa using hid
      have hu : u.bitrix_id ≠ us[j].bitrix_id := by
        have hx := huniq 0 (by simp only [List.length_cons]; omega) (by omega)
        simpa using hx
      simp only [applyUpdates]
      have hstep :
          (if E.del k = none then
            (if r.bitrix_id = u.bitrix_id then
              { r with last_greeting_sent := some (E.time k) }
             else r)
           else r) = r := by
        by_cases h1 : E.del k = none
        · by_cases h2 : r.bitrix_id = u.bitrix_id
          · exact absurd (h2.symm.trans hid2.symm) hu
          · rw [if_pos h1, if_neg h2]
        · rw [if_neg h1]
      rw [hstep]
      have hdel2 : E.del (k + 1 + j) = none := by
        have : k + 1 + j = k + (j + 1) := by omega
        rw [this]
        exact hdel
      have huniq2 : ∀ j2 (hj2 : j2 < us.length), j2 ≠ j →
          us[j2].bitrix_id ≠ us[j].bitrix_id := by
        intro j2 hj2 hne
        have hx := huniq (j2 + 1) (by simp only [List.length_cons]; omega) (by omega)
        simpa using hx
      have := ih (k + 1) r j (by simpa using Nat.lt_of_succ_lt_succ (by simpa using hj))
        hid2 hdel2 huniq2
      have harith : k + 1 + j = k + (j + 1) := by omega
      rw [harith] at this
      exact this

theorem nodup_id_index (users : List UserRow)
    (hnd : (users.map (fun u => u.bitrix_id)).Nodup)
    (i j : Nat) (hi : i < users.length) (hj : j < users.length)
    (h : users[i].bitrix_id = users[j].bitrix_id) : i = j := by
  have hi2 : i < (users.map (fun u => u.bitrix_id)).length := by
    simpa using hi
  have hj2 : j < (users.map (fun u => u.bitrix_id)).length := by
    simpa using hj
  have hmap : (users.map (fun u => u.bitrix_id))[i] = (users.map (fun u => u.bitrix_id))[j] := by
    simpa [List.getElem_map] using h
  exact hnd.getElem_inj_iff.mp hmap

/-- C4: consider a dispatch run over recipients with pairwise distinct
    ids, a recipient X (at position kx) whose delivery fails and a
    recipient Y (at position ky) whose delivery succeeds.  Row by row
    the final users table agrees with the initial one on every field
    except possibly last_greeting_sent; X's row is completely unchanged;
    Y's row has last_greeting_sent set to the timestamp of Y's step. -/
theorem c4_frame (E : BotEnv) (users : List UserRow) (st : RunSt)
    (hbs : 0 < E.batchSize)
    (hnd : (users.map (fun u => u.bitrix_id)).Nodup)
    (kx ky : Nat) (hkx : kx < users.length) (hky : ky < users.length)
    (hfail : E.del kx ≠ none) (hsucc : E.del ky = none) :
    List.Forall₂
      (fun r rf =>
        (rf.bitrix_id = r.bitrix_id ∧ rf.name = r.name ∧ rf.first_name = r.first_name ∧
         rf.last_name = r.last_name ∧ rf.email = r.email ∧
         rf.work_position = r.work_position ∧ rf.department = r.department ∧
         rf.is_active = r.is_active) ∧
        (r.bitrix_id = users[kx].bitrix_id → rf = r) ∧
        (r.bitrix_id = users[ky].bitrix_id → rf.last_greeting_sent = some (E.time ky)))
      st.store (sendMorningGreetings E users st).2.1.store := by
  have hne : ¬ users.length = 0 := by omega
  simp only [sendMorningGreetings, if_neg hne, runBatches_spec E hbs]
  rw [List.forall₂_map_right_iff, List.forall₂_same]
  intro r _
  refine ⟨applyUpdates_fields E users 0 r, ?_, ?_⟩
  · intro hr
    apply applyUpdates_no_del_match
    intro j hj hbid
    have hj_eq : j = kx :=
      nodup_id_index users hnd j kx hj hkx (hbid.trans hr)
    subst hj_eq
    simpa using hfail
  · intro hr
    have := applyUpdates_success E users 0 r ky hky hr.symm
      (by simpa using hsucc)
      (fun j2 hj2 hne2 heq => hne2 (nodup_id_index users hnd j2 ky hj2 hky heq))
    simpa using this

/-- C4 witness: a two-recipient run in which the first delivery fails
    and the second succeeds. -/
theorem c4_frame_witness :
    0 < (2 : Nat) ∧
    ([⟨"1", "А", "", "", "", "", "", true, none⟩,
      ⟨"2", "Б", "", "", "", "", "", true, none⟩].map
        (fun u : UserRow => u.bitrix_id)).Nodup ∧
    List.Forall₂
      (fun r rf =>
        (rf.bitrix_id = r.bitrix_id ∧ rf.name = r.name ∧ rf.first_name = r.first_name ∧
         rf.last_name = r.last_name ∧ rf.email = r.email ∧
         rf.work_position = r.work_position ∧ rf.department = r.department ∧
         rf.is_active = r.is_active) ∧
        (r.bitrix_id = "1" → rf = r) ∧
        (r.bitrix_id = "2" → rf.last_greeting_sent = some 7))
      [⟨"1", "А", "", "", "", "", "", true, none⟩,
       ⟨"2", "Б", "", "", "", "", "", true, none⟩]
      ((sendMorningGreetings
          ⟨2, 1000, "01-02", fun k => if k = 0 then some ("boom") else none, fun _ => 7,
           fun _ => (0, 0)⟩
          [⟨"1", "А", "", "", "", "", "", true, none⟩,
           ⟨"2", "Б", "", "", "", "", "", true, none⟩]
          ⟨[⟨"1", "А", "", "", "", "", "", true, none⟩,
            ⟨"2", "Б", "", "", "", "", "", true, none⟩], []⟩).2.1.store) := by
  refine ⟨by decide, by decide, ?_⟩
  have h := c4_frame
    ⟨2, 1000, "01-02", fun k => if k = 0 then some ("boom") else none, fun _ => 7,
     fun _ => (0, 0)⟩
    [⟨"1", "А", "", "", "", "", "", true, none⟩,
     ⟨"2", "Б", "", "", "", "", "", true, none⟩]
    ⟨[⟨"1", "А", "", "", "", "", "", true, none⟩,
      ⟨"2", "Б", "", "", "", "", "", true, none⟩], []⟩
    (by decide) (by decide) 0 1 (by decide) (by decide) (by decide) (by decide)
  exact h

/- ------------------------------------------------------------------ -/
/- Claim C6 -/

theorem batchesOf_two {α : Type _} (bs : Nat) (l : List α)
    (h1 : bs < l.length) (h2 : l.length ≤ 2 * bs) :
    batchesOf bs l = [l.take bs, l.drop bs] := by
  cases l with
  | nil => simp at h1
  | cons x xs =>
    obtain ⟨b, rfl⟩ : ∃ b, bs = b + 1 := ⟨bs - 1, by omega⟩
    rw [batchesOf_cons]
    have hdne : xs.drop b ≠ [] := by
      apply List.ne_nil_of_length_pos
      simp only [List.length_drop]
      simp only [List.length_cons] at h1
      omega
    obtain ⟨v, t, hvt⟩ := List.exists_cons_of_ne_nil hdne
    rw [hvt, batchesOf_cons]
    have ht : t.length ≤ b := by
      have hvl := congrArg List.length hvt
      simp only [List.length_drop, List.length_cons] at hvl
      simp only [List.length_cons] at h2
      omega
    rw [List.take_of_length_le ht, List.drop_eq_nil_of_le (by omega), batchesOf_nil]
    rw [← hvt]
    simp [List.take_succ_cons, List.drop_succ_cons]

theorem count_sleep_evOfDetails (delay s : Nat) (hne : s ≠ delay) :
    ∀ ds : List SendDetail, (evOfDetails delay ds).count (RunEv.sleep s) = 0 := by
  intro ds
  induction ds with
  | nil => simp [evOfDetails]
  | cons d ds ih =>
    by_cases h : 0 < delay
    · simp [evOfDetails, h, List.count_cons, List.count_append, ih, hne]
    · simp [evOfDetails, h, List.count_cons, ih]

/-- C6: a run over 12 recipients with batchSize 10 and
    interMessageDelay 1000 ms splits into exactly the two consecutive
    slices of sizes 10 and 2; every recipient is processed, in input
    order (the outcome list has length 12 and lines up with the input);
    and the event trace is the first batch's trace, then a single
    inserted pause of 2 * 1000 = 2000 ms, then the second batch's
    trace — the 2000 ms pause occurs exactly once. -/
theorem c6_batching (E : BotEnv) (users : List UserRow) (st : RunSt)
    (hbsz : E.batchSize = 10) (hdel : E.delay = 1000) (hlen : users.length = 12) :
    (batchesOf 10 users).map List.length = [10, 2] ∧
    (sendMorningGreetings E users st).1.details = some (detailsOf E users 0) ∧
    (detailsOf E users 0).length = 12 ∧
    (detailsOf E users 0).map (fun d => d.userId) = users.map (fun u => u.bitrix_id) ∧
    (sendMorningGreetings E users st).2.2 =
      evOfDetails 1000 (detailsOf E (users.take 10) 0) ++
        RunEv.sleep 2000 :: evOfDetails 1000 (detailsOf E (users.drop 10) 10) ∧
    ((sendMorningGreetings E users st).2.2).count (RunEv.sleep 2000) = 1 := by
  have hbs : 0 < E.batchSize := by omega
  have hne : ¬ users.length = 0 := by omega
  have hb2 : batchesOf 10 users = [users.take 10, users.drop 10] :=
    batchesOf_two 10 users (by omega) (by omega)
  have htk : (users.take 10).length = 10 := by
    simp [List.length_take]
    omega
  have hevs : (sendMorningGreetings E users st).2.2 =
      evOfDetails 1000 (detailsOf E (users.take 10) 0) ++
        RunEv.sleep 2000 :: evOfDetails 1000 (detailsOf E (users.drop 10) 10) := by
    simp only [sendMorningGreetings, if_neg hne, runBatches_spec E hbs]
    rw [hbsz, hb2]
    simp only [evOfChunks, hdel, htk]
  refine ⟨?_, ?_, ?_, ?_, hevs, ?_⟩
  · rw [hb2]
    simp only [List.map_cons, List.map_nil, List.length_take, List.length_drop, hlen]
    norm_num
  · simp only [sendMorningGreetings, if_neg hne, runBatches_spec E hbs]
  · rw [detailsOf_length, hlen]
  · exact detailsOf_map_userId E users 0
  · rw [hevs]
    rw [List.count_append, List.count_cons]
    rw [count_sleep_evOfDetails 1000 2000 (by omega), count_sleep_evOfDetails 1000 2000 (by omega)]
    simp

/-- C6 witness: a concrete 12-recipient run with batch size 10 and
    delay 1000. -/
theorem c6_batching_witness :
    (⟨10, 1000, "01-02", fun _ => none, fun _ => 0, fun _ => (0, 0)⟩ : BotEnv).batchSize = 10 ∧
    (⟨10, 1000, "01-02", fun _ => none, fun _ => 0, fun _ => (0, 0)⟩ : BotEnv).delay = 1000 ∧
    ([⟨"1", "а", "", "", "", "", "", true, none⟩, ⟨"2", "б", "", "", "", "", "", true, none⟩,
      ⟨"3", "в", "", "", "", "", "", true, none⟩, ⟨"4", "г", "", "", "", "", "", true, none⟩,
      ⟨"5", "д", "", "", "", "", "", true, none⟩, ⟨"6", "е", "", "", "", "", "", true, none⟩,
      ⟨"7", "ж", "", "", "", "", "", true, none⟩, ⟨"8", "з", "", "", "", "", "", true, none⟩,
      ⟨"9", "и", "", "", "", "", "", true, none⟩, ⟨"10", "к", "", "", "", "", "", true, none⟩,
      ⟨"11", "л", "", "", "", "", "", true, none⟩, ⟨"12", "м", "", "", "", "", "", true, none⟩] :
        List UserRow).length = 12 ∧
    (batchesOf 10
      ([⟨"1", "а", "", "", "", "", "", true, none⟩, ⟨"2", "б", "", "", "", "", "", true, none⟩,
        ⟨"3", "в", "", "", "", "", "", true, none⟩, ⟨"4", "г", "", "", "", "", "", true, none⟩,
        ⟨"5", "д", "", "", "", "", "", true, none⟩, ⟨"6", "е", "", "", "", "", "", true, none⟩,
        ⟨"7", "ж", "", "", "", "", "", true, none⟩, ⟨"8", "з", "", "", "", "", "", true, none⟩,
        ⟨"9", "и", "", "", "", "", "", true, none⟩, ⟨"10", "к", "", "", "", "", "", true, none⟩,
        ⟨"11", "л", "", "", "", "", "", true, none⟩, ⟨"12", "м", "", "", "", "", "", true, none⟩] :
          List UserRow)).map List.length = [10, 2] := by
  refine ⟨rfl, rfl, rfl, ?_⟩
  exact (c6_batching
    ⟨10, 1000, "01-02", fun _ => none, fun _ => 0, fun _ => (0, 0)⟩
    [⟨"1", "а", "", "", "", "", "", true, none⟩, ⟨"2", "б", "", "", "", "", "", true, none⟩,
     ⟨"3", "в", "", "", "", "", "", true, none⟩, ⟨"4", "г", "", "", "", "", "", true, none⟩,
     ⟨"5", "д", "", "", "", "", "", true, none⟩, ⟨"6", "е", "", "", "", "", "", true, none⟩,
     ⟨"7", "ж", "", "", "", "", "", true, none⟩, ⟨"8", "з", "", "", "", "", "", true, none⟩,
     ⟨"9", "и", "", "", "", "", "", true, none⟩, ⟨"10", "к", "", "", "", "", "", true, none⟩,
     ⟨"11", "л", "", "", "", "", "", true, none⟩, ⟨"12", "м", "", "", "", "", "", true, none⟩]
    ⟨[], []⟩ rfl rfl rfl).1

/- ------------------------------------------------------------------ -/
/- Claim C9 -/

theorem histRowOf_user_id (E : BotEnv) (k : Nat) (u : UserRow) :
    (histRowOf E k u).user_id = u.bitrix_id := by
  unfold histRowOf
  cases hd : E.del k <;> simp [hd]

theorem mkDetail_userId (E : BotEnv) (k : Nat) (u : UserRow) :
    (mkDetail E k u).userId = u.bitrix_id := by
  unfold mkDetail
  cases hd : E.del k <;> simp [hd]

theorem countP_histOf_zero (E : BotEnv) (uid : String) :
    ∀ (us : List UserRow) (k : Nat), (∀ v ∈ us, v.bitrix_id ≠ uid) →
      (histOf E us k).countP
        (fun row => row.user_id == uid && row.status == "error") = 0 := by
  intro us
  induction us with
  | nil => intro k _; simp [histOf]
  | cons v us ih =>
    intro k h
    simp only [histOf, List.countP_cons]
    rw [ih (k + 1) (fun w hw => h w (by simp [hw]))]
    have hv : ((histRowOf E k v).user_id == uid) = false := by
      have := h v (by simp)
      simp [histRowOf_user_id, this]
    simp [hv]

theorem detailsOf_userId_ne (E : BotEnv) (uid : String) :
    ∀ (us : List UserRow) (k : Nat), (∀ v ∈ us, v.bitrix_id ≠ uid) →
      ∀ d ∈ detailsOf E us k, d.userId ≠ uid := by
  intro us
  induction us with
  | nil => intro k _ d hd; simp [detailsOf] at hd
  | cons v us ih =>
    intro k h d hd
    simp only [detailsOf, List.mem_cons] at hd
    cases hd with
    | inl he =>
      rw [he, mkDetail_userId]
      exact h v (by simp)
    | inr hm => exact ih (k + 1) (fun w hw => h w (by simp [hw])) d hm

theorem statsRows_append (l1 l2 : List SendDetail) :
    statsRows (l1 ++ l2) = statsRows l1 ++ statsRows l2 := by
  simp [statsRows, List.filterMap_append]

theorem countP_statsRows_zero (uid : String) :
    ∀ ds : List SendDetail, (∀ d ∈ ds, d.userId ≠ uid) →
      (statsRows ds).countP
        (fun row => row.user_id == uid && row.status == "error") = 0 := by
  intro ds
  induction ds with
  | nil => intro _; simp [statsRows]
  | cons d ds ih =>
    intro h
    simp only [statsRows, List.filterMap_cons]
    cases hc : (!d.success && jsTruthy d.error) with
    | false =>
      simp only [Bool.false_eq_true, if_neg, ite_false]
      exact ih (fun w hw => h w (by simp [hw]))
    | true =>
      simp only [ite_true]
      rw [List.countP_cons]
      have hd : (((⟨d.userId, "Morning greeting", "error", d.error⟩ : MsgRow).user_id == uid)) = false := by
        have := h d (by simp)
        simpa using this
      have hrest := ih (fun w hw => h w (by simp [hw]))
      simp only [statsRows] at hrest
      rw [hrest]
      simp [hd]

/-- C9 counterexample: one recipient whose delivery fails with an empty
    error message (a thrown error whose message is the empty string).
    detail.error is then falsy, saveGreetingStats writes nothing, and
    exactly one error row — the send wrapper's — lands in
    message_history, not two. -/
theorem c9_counterexample :
    ((sendMorningGreetings ⟨10, 0, "01-02", fun _ => some (""), fun _ => 0, fun _ => (0, 0)⟩
        [⟨"1", "А", "", "", "", "", "", true, none⟩] ⟨[], []⟩).2.1.hist).countP
      (fun row => row.user_id == "1" && row.status == "error") = 1 := by
  have hbs : 0 < (10 : Nat) := by omega
  simp only [sendMorningGreetings, if_neg (by decide : ¬ ([⟨"1", "А", "", "", "", "", "", true, some 0⟩] : List UserRow).length = 0)]
  rw [runBatches_spec _ hbs]
  rw [saveGreetingStats_eq]
  simp [histOf, histRowOf, detailsOf, mkDetail, statsRows, jsTruthy, List.countP_cons]

theorem c9_hist_decompose (E : BotEnv) (users : List UserRow) (st : RunSt)
    (hbs : 0 < E.batchSize) (hne : ¬ users.length = 0) :
    (sendMorningGreetings E users st).2.1.hist =
      st.hist ++ histOf E users 0 ++ statsRows (detailsOf E users 0) := by
  simp only [sendMorningGreetings, if_neg hne, runBatches_spec E hbs]
  rw [saveGreetingStats_eq]

/-- C9 amended: when a recipient u occurring exactly once in the run
    fails inside the Delivery Channel send with a non-empty error
    message, exactly two error rows for u are appended to
    message_history — the send wrapper's and the statistics pass's.
    When the error message is empty only the wrapper's row is written
    (see the counterexample). -/
theorem c9_error_rows (E : BotEnv) (pre post : List UserRow) (u : UserRow)
    (st : RunSt) (m : String)
    (hbs : 0 < E.batchSize)
    (hfail : E.del pre.length = some m) (hm : m ≠ "")
    (hpre : ∀ v ∈ pre, v.bitrix_id ≠ u.bitrix_id)
    (hpost : ∀ v ∈ post, v.bitrix_id ≠ u.bitrix_id) :
    ((sendMorningGreetings E (pre ++ u :: post) st).2.1.hist).countP
        (fun row => row.user_id == u.bitrix_id && row.status == "error") =
      st.hist.countP (fun row => row.user_id == u.bitrix_id && row.status == "error") + 2 := by
  have hne : ¬ (pre ++ u :: post).length = 0 := by simp
  rw [c9_hist_decompose E (pre ++ u :: post) st hbs hne]
  rw [List.countP_append, List.countP_append]
  have hhist : (histOf E (pre ++ u :: post) 0).countP
      (fun row => row.user_id == u.bitrix_id && row.status == "error") = 1 := by
    rw [histOf_append]
    rw [List.countP_append]
    rw [countP_histOf_zero E u.bitrix_id pre 0 hpre]
    simp only [histOf, List.countP_cons]
    rw [countP_histOf_zero E u.bitrix_id post (0 + pre.length + 1) hpost]
    have hrow : histRowOf E (0 + pre.length) u =
        ⟨u.bitrix_id, generateGreeting (userNameOf u) E.monthDay (E.rand (0 + pre.length)),
         "error", some m⟩ := by
      unfold histRowOf
      simp only [Nat.zero_add, hfail]
    rw [hrow]
    simp
  have hstats : (statsRows (detailsOf E (pre ++ u :: post) 0)).countP
      (fun row => row.user_id == u.bitrix_id && row.status == "error") = 1 := by
    rw [detailsOf_append]
    rw [statsRows_append]
    rw [List.countP_append]
    rw [countP_statsRows_zero u.bitrix_id (detailsOf E pre 0)
      (detailsOf_userId_ne E u.bitrix_id pre 0 hpre)]
    simp only [detailsOf]
    have hd : mkDetail E (0 + pre.length) u = ⟨false, u.bitrix_id, some m⟩ := by
      unfold mkDetail
      simp only [Nat.zero_add, hfail]
    rw [hd]
    simp only [statsRows, List.filterMap_cons]
    have hcond : (!(⟨false, u.bitrix_id, some m⟩ : SendDetail).success &&
        jsTruthy (⟨false, u.bitrix_id, some m⟩ : SendDetail).error) = true := by
      simp [jsTruthy, hm]
    rw [hcond]
    simp only [ite_true]
    rw [List.countP_cons]
    have hzero := countP_statsRows_zero u.bitrix_id (detailsOf E post (0 + pre.length + 1))
      (detailsOf_userId_ne E u.bitrix_id post (0 + pre.length + 1) hpost)
    simp only [statsRows] at hzero
    simp only [Nat.zero_add] at hzero ⊢
    rw [hzero]
    simp
  rw [hhist, hstats]

/-- C9 witness: a single-recipient run failing with the non-empty
    message x yields exactly two error rows. -/
theorem c9_error_rows_witness :
    0 < (⟨10, 0, "01-02", fun _ => some ("x"), fun _ => 0, fun _ => (0, 0)⟩ : BotEnv).batchSize ∧
    ("x" : String) ≠ "" ∧
    ((sendMorningGreetings ⟨10, 0, "01-02", fun _ => some ("x"), fun _ => 0, fun _ => (0, 0)⟩
        (([] : List UserRow) ++ (⟨"1", "А", "", "", "", "", "", true, none⟩ : UserRow) :: [])
        ⟨[], []⟩).2.1.hist).countP
      (fun row => row.user_id == "1" && row.status == "error") =
      ([] : List MsgRow).countP (fun row => row.user_id == "1" && row.status == "error") + 2 := by
  refine ⟨by decide, by decide, ?_⟩
  exact c9_error_rows
    ⟨10, 0, "01-02", fun _ => some ("x"), fun _ => 0, fun _ => (0, 0)⟩
    [] [] ⟨"1", "А", "", "", "", "", "", true, none⟩ ⟨[], []⟩ "x"
    (by decide) rfl (by decide) (by simp) (by simp)

/- ------------------------------------------------------------------ -/
/- Trigger Scheduler (src/utils/scheduler.js).  A cron expression
   "minute hour * * dow" as built by scheduleMorningGreeting is
   modelled by its three non-wildcard fields; a NaN produced by
   parseInt on a malformed day entry is modelled as none.  cron.schedule
   (node-cron) validates the expression and throws on an invalid one:
   minute 0-59, hour 0-23, day-of-week entries 0-7, no empty or
   non-numeric field.  Job objects are identified by a fresh id; a
   handler is identified by a number. -/

structure CronExpr where
  minute : Int
  hour : Int
  dow : List (Option Int)
  deriving DecidableEq

/-- Validation performed by cron.schedule on the built expression. -/
def cronValid (e : CronExpr) : Bool :=
  decide (0 ≤ e.minute) && decide (e.minute ≤ 59) &&
  decide (0 ≤ e.hour) && decide (e.hour ≤ 23) &&
  !e.dow.isEmpty &&
  e.dow.all (fun d =>
    match d with
    | some v => decide (0 ≤ v) && decide (v ≤ 7)
    | none => false)

/-- In-process cron job object: name it was registered under, its
    expression, its handler, and whether it is live (not stopped). -/
structure SchedJob where
  id : Nat
  name : String
  expr : CronExpr
  handlerId : Nat
  running : Bool
  deriving DecidableEq

/-- Scheduler state: this.jobs (a Map name -> job, modelled as an
    association list with unique keys), every job object ever created,
    and a fresh-id counter. -/
structure SchedState where
  jobs : List (String × Nat)
  created : List SchedJob
  nextId : Nat
  deriving DecidableEq

def eraseKey (n : String) (l : List (String × Nat)) : List (String × Nat) :=
  l.filter (fun p => p.1 != n)

/-- Map.set: at most one entry per key. -/
def mapSet (n : String) (v : Nat) (l : List (String × Nat)) : List (String × Nat) :=
  (n, v) :: eraseKey n l

/-- job.stop() on the job object with the given id. -/
def stopJobObj (jid : Nat) (created : List SchedJob) : List SchedJob :=
  created.map (fun j => if j.id = jid then { j with running := false } else j)

/-- Scheduler.scheduleJob: stop the previous job registered under the
    name if any, then cron.schedule the new expression — which throws
    on an invalid expression, before this.jobs.set runs — and register
    the new job object. -/
def scheduleJob (s : SchedState) (name : String) (e : CronExpr) (h : Nat) :
    SchedState × Except String Unit :=
  let created1 :=
    match s.jobs.lookup name with
    | some jid => stopJobObj jid s.created
    | none => s.created
  if cronValid e then
    (⟨mapSet name s.nextId s.jobs,
      created1 ++ [⟨s.nextId, name, e, h, true⟩],
      s.nextId + 1⟩,
     Except.ok ())
  else
    (⟨s.jobs, created1, s.nextId⟩, Except.error ("invalid cron expression"))

/-- Scheduler.stopJob: stop the mapped job and delete the map entry;
    no-op for an unknown name. -/
def stopJob (s : SchedState) (name : String) : SchedState :=
  match s.jobs.lookup name with
  | some jid => ⟨eraseKey name s.jobs, stopJobObj jid s.created, s.nextId⟩
  | none => s

/-- Scheduler.stopAll: stop every mapped job and clear the map. -/
def stopAll (s : SchedState) : SchedState :=
  ⟨[],
   s.created.map (fun j =>
     if s.jobs.lookup j.name = some j.id then { j with running := false } else j),
   s.nextId⟩

/-- Scheduler state at construction: empty map, nothing created. -/
def schedInit : SchedState := ⟨[], [], 0⟩

/-- States reachable through the scheduler's mutating operations. -/
inductive SchedReach : SchedState → Prop where
  | init : SchedReach schedInit
  | sched (s : SchedState) (name : String) (e : CronExpr) (h : Nat) :
      SchedReach s → SchedReach (scheduleJob s name e h).1
  | stop (s : SchedState) (name : String) : SchedReach s → SchedReach (stopJob s name)
  | stopall (s : SchedState) : SchedReach s → SchedReach (stopAll s)

/-- Live job objects registered under a name: each of these fires its
    handler at the next occurrence of its expression. -/
def liveJobs (s : SchedState) (name : String) : List SchedJob :=
  s.created.filter (fun j => j.name == name && j.running)

/-- Invariant: every live job object is the one its name maps to. -/
def SchedInv (s : SchedState) : Prop :=
  ∀ j ∈ s.created, j.running = true → s.jobs.lookup j.name = some j.id

theorem mem_stopJobObj (jid : Nat) (created : List SchedJob) (j : SchedJob)
    (hm : j ∈ stopJobObj jid created) (hr : j.running = true) :
    j ∈ created ∧ j.id ≠ jid := by
  unfold stopJobObj at hm
  obtain ⟨a, ha, heq⟩ := List.mem_map.mp hm
  by_cases hid : a.id = jid
  · rw [if_pos hid] at heq
    rw [← heq] at hr
    simp at hr
  · rw [if_neg hid] at heq
    subst heq
    exact ⟨ha, hid⟩

theorem lookup_eraseKey (n m : String) (l : List (String × Nat)) (h : m ≠ n) :
    (eraseKey n l).lookup m = l.lookup m := by
  induction l with
  | nil => simp [eraseKey]
  | cons p l ih =>
    cases p with
    | mk a b =>
      by_cases hp : a = n
      · have hma : (m == a) = false := by
          subst hp
          simp [h]
        have hcond : ((a, b).1 != n) = false := by simp [hp]
        simp only [eraseKey, List.filter_cons, hcond, Bool.false_eq_true, ite_false]
        simp only [eraseKey] at ih
        rw [ih]
        show List.lookup m l = List.lookup m ((a, b) :: l)
        simp [List.lookup, hma]
      · have hcond : ((a, b).1 != n) = true := by simp [hp]
        simp only [eraseKey, List.filter_cons, hcond, ite_true]
        simp only [List.lookup]
        cases hma : (m == a) with
        | true => rfl
        | false =>
          simp only [eraseKey] at ih
          exact ih

theorem lookup_mapSet_self (n : String) (v : Nat) (l : List (String × Nat)) :
    (mapSet n v l).lookup n = some v := by
  simp [mapSet, List.lookup]

theorem lookup_mapSet_other (n m : String) (v : Nat) (l : List (String × Nat))
    (h : m ≠ n) : (mapSet n v l).lookup m = l.lookup m := by
  have h1 : (m == n) = false := by simp [h]
  simp only [mapSet, List.lookup, h1]
  exact lookup_eraseKey n m l h

theorem schedInv_scheduleJob (s : SchedState) (name : String) (e : CronExpr) (h : Nat)
    (hInv : SchedInv s) : SchedInv (scheduleJob s name e h).1 := by
  cases hlk : s.jobs.lookup name with
  | some jid =>
    cases hv : cronValid e with
    | true =>
      intro j hj hr
      simp only [scheduleJob, hlk, hv, if_true] at hj ⊢
      rcases List.mem_append.mp hj with hj1 | hj2
      · obtain ⟨hmem, hne⟩ := mem_stopJobObj jid s.created j hj1 hr
        have hlkj := hInv j hmem hr
        have hnm : j.name ≠ name := by
          intro hEq
          rw [hEq, hlk] at hlkj
          exact hne (Option.some.inj hlkj).symm
        rw [lookup_mapSet_other name j.name s.nextId s.jobs hnm]
        exact hlkj
      · have hj2e : j = ⟨s.nextId, name, e, h, true⟩ := by simpa using hj2
        rw [hj2e]
        exact lookup_mapSet_self name s.nextId s.jobs
    | false =>
      intro j hj hr
      simp only [scheduleJob, hlk, hv, Bool.false_eq_true, if_false] at hj ⊢
      obtain ⟨hmem, _⟩ := mem_stopJobObj jid s.created j hj hr
      exact hInv j hmem hr
  | none =>
    cases hv : cronValid e with
    | true =>
      intro j hj hr
      simp only [scheduleJob, hlk, hv, if_true] at hj ⊢
      rcases List.mem_append.mp hj with hj1 | hj2
      · have hlkj := hInv j hj1 hr
        have hnm : j.name ≠ name := by
          intro hEq
          rw [hEq, hlk] at hlkj
          exact Option.noConfusion hlkj
        rw [lookup_mapSet_other name j.name s.nextId s.jobs hnm]
        exact hlkj
      · have hj2e : j = ⟨s.nextId, name, e, h, true⟩ := by simpa using hj2
        rw [hj2e]
        exact lookup_mapSet_self name s.nextId s.jobs
    | false =>
      intro j hj hr
      simp only [scheduleJob, hlk, hv, Bool.false_eq_true, if_false] at hj ⊢
      exact hInv j hj hr

theorem schedInv_stopJob (s : SchedState) (name : String)
    (hInv : SchedInv s) : SchedInv (stopJob s name) := by
  cases hlk : s.jobs.lookup name with
  | none =>
    simp only [stopJob, hlk]
    exact hInv
  | some jid =>
    intro j hj hr
    simp only [stopJob, hlk] at hj ⊢
    obtain ⟨hmem, hne⟩ := mem_stopJobObj jid s.created j hj hr
    have hlkj := hInv j hmem hr
    have hnm : j.name ≠ name := by
      intro hEq
      rw [hEq, hlk] at hlkj
      exact hne (Option.some.inj hlkj).symm
    rw [lookup_eraseKey name j.name s.jobs hnm]
    exact hlkj

theorem schedInv_stopAll (s : SchedState) (hInv : SchedInv s) :
    SchedInv (stopAll s) := by
  intro j hj hr
  exfalso
  simp only [stopAll] at hj
  obtain ⟨a, ha, heq⟩ := List.mem_map.mp hj
  by_cases hc : s.jobs.lookup a.name = some a.id
  · rw [if_pos hc] at heq
    rw [← heq] at hr
    simp at hr
  · rw [if_neg hc] at heq
    subst heq
    exact hc (hInv a ha hr)

theorem schedReach_inv (s : SchedState) (hs : SchedReach s) : SchedInv s := by
  induction hs with
  | init =>
    intro j hj _
    simp [schedInit] at hj
  | sched s name e h _ ih => exact schedInv_scheduleJob s name e h ih
  | stop s name _ ih => exact schedInv_stopJob s name ih
  | stopall s _ ih => exact schedInv_stopAll s ih

theorem liveJobs_after_replace (s1 : SchedState) (name : String) (e2 : CronExpr)
    (h2 : Nat) (nid : Nat) (hInv1 : SchedInv s1)
    (hlk1 : s1.jobs.lookup name = some nid) (hv2 : cronValid e2 = true) :
    liveJobs (scheduleJob s1 name e2 h2).1 name =
      [⟨s1.nextId, name, e2, h2, true⟩] := by
  have hcreated2 : (scheduleJob s1 name e2 h2).1.created =
      stopJobObj nid s1.created ++ [⟨s1.nextId, name, e2, h2, true⟩] := by
    simp [scheduleJob, hlk1, hv2]
  unfold liveJobs
  rw [hcreated2, List.filter_append]
  have hleft : (stopJobObj nid s1.created).filter
      (fun j => j.name == name && j.running) = [] := by
    rw [List.filter_eq_nil_iff]
    intro j hj
    simp only [Bool.and_eq_true, beq_iff_eq]
    rintro ⟨hnm, hr⟩
    obtain ⟨hmem, hne⟩ := mem_stopJobObj nid s1.created j hj hr
    have hlkj := hInv1 j hmem hr
    rw [hnm, hlk1] at hlkj
    exact hne (Option.some.inj hlkj).symm
  rw [hleft]
  simp

/-- C3: from any reachable scheduler state, registering a trigger twice
    under the same name (both with valid schedules) leaves exactly one
    live job object under that name — the second registration's, whose
    handler is therefore fired exactly once at the next occurrence. -/
theorem c3_single_live_trigger (s : SchedState) (hs : SchedReach s)
    (name : String) (e1 e2 : CronExpr) (h1 h2 : Nat)
    (hv1 : cronValid e1 = true) (hv2 : cronValid e2 = true) :
    liveJobs ((scheduleJob (scheduleJob s name e1 h1).1 name e2 h2).1) name =
      [⟨s.nextId + 1, name, e2, h2, true⟩] ∧
    (liveJobs ((scheduleJob (scheduleJob s name e1 h1).1 name e2 h2).1) name).map
      (fun j => j.handlerId) = [h2] := by
  have hInv : SchedInv s := schedReach_inv s hs
  have hInv1 : SchedInv (scheduleJob s name e1 h1).1 :=
    schedInv_scheduleJob s name e1 h1 hInv
  have hjobs1 : (scheduleJob s name e1 h1).1.jobs = mapSet name s.nextId s.jobs := by
    simp [scheduleJob, hv1]
  have hnext1 : (scheduleJob s name e1 h1).1.nextId = s.nextId + 1 := by
    simp [scheduleJob, hv1]
  have hlk1 : (scheduleJob s name e1 h1).1.jobs.lookup name = some s.nextId := by
    rw [hjobs1]
    exact lookup_mapSet_self name s.nextId s.jobs
  have hmain := liveJobs_after_replace (scheduleJob s name e1 h1).1 name e2 h2
    s.nextId hInv1 hlk1 hv2
  rw [hnext1] at hmain
  exact ⟨hmain, by rw [hmain]; simp⟩

/-- C3 witness: two registrations under the same name from the initial
    state, both with the default valid schedule 0 9 * * 1-5. -/
theorem c3_single_live_trigger_witness :
    SchedReach schedInit ∧
    cronValid ⟨0, 9, [some 1, some 2, some 3, some 4, some 5]⟩ = true ∧
    liveJobs ((scheduleJob
        (scheduleJob schedInit ("morning_greeting")
          ⟨0, 9, [some 1, some 2, some 3, some 4, some 5]⟩ 1).1
        "morning_greeting" ⟨0, 9, [some 1, some 2, some 3, some 4, some 5]⟩ 2).1)
      "morning_greeting" =
      [⟨1, "morning_greeting", ⟨0, 9, [some 1, some 2, some 3, some 4, some 5]⟩, 2, true⟩] := by
  refine ⟨SchedReach.init, by decide, ?_⟩
  exact (c3_single_live_trigger schedInit SchedReach.init ("morning_greeting")
    ⟨0, 9, [some 1, some 2, some 3, some 4, some 5]⟩
    ⟨0, 9, [some 1, some 2, some 3, some 4, some 5]⟩ 1 2 (by decide) (by decide)).1

/- ------------------------------------------------------------------ -/
/- Claim C7 -/

/-- JavaScript String.prototype.split(',') on the character level:
    splitting the empty string yields [''], never an empty list. -/
def splitCommaAux : List Char → List Char → List String
  | [], acc => [⟨acc.reverse⟩]
  | c :: cs, acc =>
    if c == ',' then ⟨acc.reverse⟩ :: splitCommaAux cs []
    else splitCommaAux cs (c :: acc)

def splitComma (s : String) : List String := splitCommaAux s.data []

/-- parseInt(d.trim()) as used on a day-of-week entry: none models NaN.
    The entries at hand are pure (possibly space-padded) digit strings
    or empty; a leading-garbage prefix parse is not needed for them. -/
def parseDigitsAux : List Char → Nat → Option Nat
  | [], acc => some acc
  | c :: cs, acc =>
    if c.isDigit then parseDigitsAux cs (acc * 10 + (c.toNat - 48)) else none

def trimSpaces (cs : List Char) : List Char :=
  ((cs.dropWhile (fun c => c == ' ')).reverse.dropWhile (fun c => c == ' ')).reverse

def parseIntOpt (s : String) : Option Int :=
  match trimSpaces s.data with
  | [] => none
  | cs => (parseDigitsAux cs 0).map Int.ofNat

/-- Row of the schedule_settings table as read by
    Database.getScheduleSettings and passed to
    Scheduler.scheduleMorningGreeting. -/
structure ScheduleSettings where
  hour : Int
  minute : Int
  days_of_week : String
  deriving DecidableEq

/-- Scheduler.scheduleMorningGreeting: builds the cron expression
    minute hour * * days (days parsed from the comma-separated column)
    and registers it under the name morning_greeting via scheduleJob. -/
def scheduleMorningGreeting (s : SchedState) (settings : ScheduleSettings) (h : Nat) :
    SchedState × Except String Unit :=
  scheduleJob s ("morning_greeting")
    ⟨settings.minute, settings.hour, (splitComma settings.days_of_week).map parseIntOpt⟩ h

/-- C7: registering or rescheduling the morning-greeting trigger with
    hour outside 0-23, minute outside 0-59, or an empty daysOfWeek
    column fails: the error is returned to the immediate caller, no job
    object is created, the name map is untouched, and every job that is
    live afterwards already existed before the call (nothing was
    registered for the invalid definition). -/
theorem c7_invalid_schedule (s : SchedState) (settings : ScheduleSettings) (h : Nat)
    (hbad : ¬ (0 ≤ settings.hour ∧ settings.hour ≤ 23) ∨
            ¬ (0 ≤ settings.minute ∧ settings.minute ≤ 59) ∨
            settings.days_of_week = "") :
    (scheduleMorningGreeting s settings h).2 = Except.error ("invalid cron expression") ∧
    (scheduleMorningGreeting s settings h).1.created.length = s.created.length ∧
    (scheduleMorningGreeting s settings h).1.jobs = s.jobs ∧
    (scheduleMorningGreeting s settings h).1.nextId = s.nextId ∧
    (∀ j ∈ (scheduleMorningGreeting s settings h).1.created, j.running = true →
      j ∈ s.created) := by
  have hv : cronValid
      ⟨settings.minute, settings.hour, (splitComma settings.days_of_week).map parseIntOpt⟩ =
      false := by
    rw [Bool.eq_false_iff]
    intro hcv
    simp only [cronValid, Bool.and_eq_true, decide_eq_true_eq] at hcv
    obtain ⟨⟨⟨⟨⟨hm1, hm2⟩, hh1⟩, hh2⟩, hdne⟩, hall⟩ := hcv
    rcases hbad with hb | hb | hb
    · exact hb ⟨hh1, hh2⟩
    · exact hb ⟨hm1, hm2⟩
    · rw [List.all_eq_true] at hall
      have hmem : (none : Option Int) ∈ (splitComma settings.days_of_week).map parseIntOpt := by
        rw [hb]
        show (none : Option Int) ∈ (splitComma ("")).map parseIntOpt
        simp [splitComma, splitCommaAux, parseIntOpt, trimSpaces]
      have := hall none hmem
      simp at this
  have hred : scheduleMorningGreeting s settings h =
      (⟨s.jobs,
        (match s.jobs.lookup ("morning_greeting") with
         | some jid => stopJobObj jid s.created
         | none => s.created),
        s.nextId⟩, Except.error ("invalid cron expression")) := by
    unfold scheduleMorningGreeting scheduleJob
    rw [hv]
    simp
  rw [hred]
  refine ⟨rfl, ?_, rfl, rfl, ?_⟩
  · cases hlk : s.jobs.lookup ("morning_greeting") with
    | some jid => simp [hlk, stopJobObj]
    | none => simp [hlk]
  · intro j hj hr
    cases hlk : s.jobs.lookup ("morning_greeting") with
    | some jid =>
      rw [hlk] at hj
      simp only at hj
      exact (mem_stopJobObj jid s.created j hj hr).1
    | none =>
      rw [hlk] at hj
      simpa using hj

/-- C7 witness: hour 24 with the default day set is rejected and
    registers nothing. -/
theorem c7_invalid_schedule_witness :
    (¬ (0 ≤ (24 : Int) ∧ (24 : Int) ≤ 23) ∨
     ¬ (0 ≤ (0 : Int) ∧ (0 : Int) ≤ 59) ∨
     ("1,2,3,4,5" : String) = "") ∧
    (scheduleMorningGreeting schedInit ⟨24, 0, "1,2,3,4,5"⟩ 1).2 =
      Except.error ("invalid cron expression") ∧
    (scheduleMorningGreeting schedInit ⟨24, 0, "1,2,3,4,5"⟩ 1).1.created.length =
      schedInit.created.length := by
  have h := c7_invalid_schedule schedInit ⟨24, 0, "1,2,3,4,5"⟩ 1
    (Or.inl (by decide))
  exact ⟨Or.inl (by decide), h.1, h.2.1⟩
